import Mathlib

/-!
Verification of the QHS AI Risk Analysis Bot pipeline
(`Risk_Analysis_Bot.py`, prompts in `LLM_Prompts.py`).

The development shallowly embeds the report-generation and aggregation
pipeline over `List Char` strings:

* Python `str.strip` / `str.replace` are modelled character-exactly
  (`pyStrip`, `pyRemove`); `str.replace(pat, "")` removes all
  non-overlapping occurrences scanning left to right, which is what
  `pyRemove` does.
* `re.findall(r, text)` for the pattern actually present in the source
  (line 79: the pattern literal is the empty string) returns one
  empty-string match at every position of the text, i.e.
  `len(text) + 1` copies of the empty string; `json_blocks` embeds that.
* `json.loads` is modelled by a recursive-descent parser `json_loads`
  over a `Json` value type (objects, arrays, strings with the common
  escapes, integer numerals, `true`/`false`/`null`); `none` stands for a
  raised `json.JSONDecodeError`.  The program only ever applies it to
  the empty string (see `json_blocks`), on which it errs, exactly as
  `json.loads("")` raises.
* Exceptions are explicit: fallible steps return `Except PyExc _`; an
  `Except.error` value is an uncaught Python exception propagating out.
* `backoff.on_exception(backoff.expo, Exception, max_tries=3)` is
  `backoffRetry`: it re-invokes the wrapped call while the call itself
  raises, up to three tries (the growing sleeps are irrelevant to the
  values computed and are not modelled).
* In Python, `list.sort(key=...)` is a stable ascending sort by the key;
  its output is uniquely determined by stability + sortedness +
  permutation, so the embedding uses `List.mergeSort` (stable) with a
  comparator `scenLe` on the country key.  Python compares `str`
  values lexicographically by code point, which `lexLe` implements.
-/

namespace RiskBot

/-! Python string primitives. -/

/-- Characters treated as whitespace by Python `str.strip()`. -/
def pyIsSpace (c : Char) : Bool :=
  (c == ' ') || (c == '\t') || (c == '\n') || (c == '\r') || (c == '\x0b') || (c == '\x0c')

/-- Python `s.strip()`: drop trailing whitespace (via the reversal), then
leading whitespace. -/
def pyStrip (s : List Char) : List Char :=
  List.dropWhile pyIsSpace ((List.dropWhile pyIsSpace s.reverse).reverse)

/-- Scanner for `str.replace(pat, "")`: with `skip = 0` it looks for an
occurrence of `pat` at the current position, removes it when found (by
skipping its remaining `pat.length - 1` characters) and otherwise emits
the current character; a positive `skip` just consumes characters of a
removed occurrence. -/
def pyRemoveAux (pat : List Char) : Nat → List Char → List Char
  | _, [] => []
  | 0, c :: t =>
    if pat.isPrefixOf (c :: t) then pyRemoveAux pat (pat.length - 1) t
    else c :: pyRemoveAux pat 0 t
  | skip + 1, _ :: t => pyRemoveAux pat skip t

/-- Python `s.replace(pat, "")` for non-empty `pat`: remove every
non-overlapping occurrence, scanning left to right and continuing after
each removed occurrence (`s.replace("", "")` is `s` itself). -/
def pyRemove (pat : List Char) (s : List Char) : List Char :=
  if pat.isEmpty then s else pyRemoveAux pat 0 s

/-- The backtick character, written by code point. -/
def tick : Char := '\x60'

/-- The bare markdown fence marker, three backticks. -/
def tickFence : List Char := [tick, tick, tick]

/-- The opening fence with language tag removed first by the source,
`"```markdown"`. -/
def mdFence : List Char := tickFence ++ "markdown".data

/-- The response-cleaning step of `generate_report_for_country`
(line 63): `response.text.strip().replace("```markdown", "")
.replace("```", "").strip()`. -/
def clean_text (t : List Char) : List Char :=
  pyStrip (pyRemove tickFence (pyRemove mdFence (pyStrip t)))

/-- Decidable substring test: does `pat` occur contiguously in `s`? -/
def hasSub (pat : List Char) : List Char → Bool
  | [] => pat.isEmpty
  | c :: t => pat.isPrefixOf (c :: t) || hasSub pat t

/-! JSON values and `json.loads`.

The values `json.loads` can produce, as consumed by the script
(lines 88-96).  Numbers are restricted to integer numerals and strings
to the common escapes; the program only ever calls `json_loads` on the
empty string (see `json_blocks`), which fails to parse. -/

inductive Json where
  | null : Json
  | bool (b : Bool) : Json
  | num (n : Int) : Json
  | str (s : List Char) : Json
  | arr (xs : List Json) : Json
  | obj (kvs : List (List Char × Json)) : Json
deriving Repr

/-- JSON insignificant whitespace. -/
def jsonWs (c : Char) : Bool :=
  (c == ' ') || (c == '\t') || (c == '\n') || (c == '\r')

/-- Skip insignificant whitespace. -/
def skipWs (s : List Char) : List Char := s.dropWhile jsonWs

/-- Parse the remainder of a JSON string literal after the opening
quote, handling the common escapes. -/
def parseStringBody : Nat → List Char → Option (List Char × List Char)
  | 0, _ => none
  | _, [] => none
  | fuel + 1, c :: rest =>
    if c = '"' then some ([], rest)
    else if c = '\\' then
      match rest with
      | [] => none
      | e :: rest2 =>
        let dec : Option Char :=
          if e = '"' then some '"'
          else if e = '\\' then some '\\'
          else if e = '/' then some '/'
          else if e = 'n' then some '\n'
          else if e = 't' then some '\t'
          else if e = 'r' then some '\r'
          else none
        match dec with
        | none => none
        | some d =>
          match parseStringBody fuel rest2 with
          | none => none
          | some (cs, rem) => some (d :: cs, rem)
    else
      match parseStringBody fuel rest with
      | none => none
      | some (cs, rem) => some (c :: cs, rem)

/-- Parse a non-empty run of decimal digits into a natural number. -/
def parseDigits (s : List Char) : Option (Nat × List Char) :=
  let ds := s.takeWhile Char.isDigit
  if ds.isEmpty then none
  else some (ds.foldl (fun a c => a * 10 + (c.toNat - 48)) 0, s.dropWhile Char.isDigit)

/-- What the recursive-descent parser is currently parsing: a value,
the members of an object, or the elements of an array. -/
inductive PMode where
  | value : PMode
  | members : PMode
  | elems : PMode

/-- The corresponding intermediate results. -/
inductive PRes where
  | v (j : Json) : PRes
  | ms (kvs : List (List Char × Json)) : PRes
  | es (xs : List Json) : PRes

/-- Recursive-descent JSON parser, fuel-indexed so that the recursion
is structural. -/
def parseCore : Nat → PMode → List Char → Option (PRes × List Char)
  | 0, _, _ => none
  | fuel + 1, PMode.value, s =>
    match skipWs s with
    | [] => none
    | c :: rest =>
      if c = '\x7b' then
        match parseCore fuel PMode.members rest with
        | some (PRes.ms kvs, rem) => some (PRes.v (Json.obj kvs), rem)
        | _ => none
      else if c = '[' then
        match parseCore fuel PMode.elems rest with
        | some (PRes.es xs, rem) => some (PRes.v (Json.arr xs), rem)
        | _ => none
      else if c = '"' then
        match parseStringBody (fuel + 1) rest with
        | none => none
        | some (cs, rem) => some (PRes.v (Json.str cs), rem)
      else if c = '-' then
        match parseDigits rest with
        | none => none
        | some (n, rem) => some (PRes.v (Json.num (-(n : Int))), rem)
      else if c.isDigit then
        match parseDigits (c :: rest) with
        | none => none
        | some (n, rem) => some (PRes.v (Json.num (n : Int)), rem)
      else if "true".data.isPrefixOf (c :: rest) then
        some (PRes.v (Json.bool true), (c :: rest).drop 4)
      else if "false".data.isPrefixOf (c :: rest) then
        some (PRes.v (Json.bool false), (c :: rest).drop 5)
      else if "null".data.isPrefixOf (c :: rest) then
        some (PRes.v Json.null, (c :: rest).drop 4)
      else none
  | fuel + 1, PMode.members, s =>
    match skipWs s with
    | [] => none
    | c :: rest =>
      if c = '\x7d' then some (PRes.ms [], rest)
      else if c = '"' then
        match parseStringBody (fuel + 1) rest with
        | none => none
        | some (key, r1) =>
          match skipWs r1 with
          | ':' :: r2 =>
            match parseCore fuel PMode.value r2 with
            | some (PRes.v v, r3) =>
              match skipWs r3 with
              | ',' :: r4 =>
                match parseCore fuel PMode.members r4 with
                | some (PRes.ms kvs, r5) => some (PRes.ms ((key, v) :: kvs), r5)
                | _ => none
              | '\x7d' :: r4 => some (PRes.ms [(key, v)], r4)
              | _ => none
            | _ => none
          | _ => none
      else none
  | fuel + 1, PMode.elems, s =>
    match skipWs s with
    | [] => none
    | c :: rest =>
      if c = ']' then some (PRes.es [], rest)
      else
        match parseCore fuel PMode.value (c :: rest) with
        | some (PRes.v v, r1) =>
          match skipWs r1 with
          | ',' :: r2 =>
            match parseCore fuel PMode.elems r2 with
            | some (PRes.es vs, r3) => some (PRes.es (v :: vs), r3)
            | _ => none
          | ']' :: r2 => some (PRes.es [v], r2)
          | _ => none
        | _ => none

/-- Python `json.loads`: parse one JSON value and require only
whitespace after it; `none` models a raised `json.JSONDecodeError`.
The fuel bound is ample: every unit of fuel spent on descent
corresponds to at least one character of input. -/
def json_loads (s : List Char) : Option Json :=
  match parseCore (2 * s.length + 2) PMode.value s with
  | some (PRes.v v, rest) => if skipWs rest = [] then some v else none
  | _ => none

/-! The aggregation pipeline, `parse_reports_and_build_table`, lines 70-112. -/

/-- Python exceptions that the aggregation code can raise: the
`json.JSONDecodeError` it catches (line 97), and the `AttributeError` /
`TypeError` that `.get` on a non-dict or iterating a non-iterable would
raise, which nothing catches. -/
inductive PyExc where
  | jsonDecodeError : PyExc
  | attributeError : PyExc
  | typeError : PyExc
deriving DecidableEq, Repr

/-- Python `dict.get(k, default)` on a dict built by `json.loads`
(later duplicate keys overwrite earlier ones, hence the last match). -/
def dict_get (kvs : List (List Char × Json)) (k : List Char) (d : Json) : Json :=
  match (kvs.filter (fun p => p.1 == k)).getLast? with
  | some p => p.2
  | none => d

/-- One record appended to `all_scenarios` (lines 91-96).  The fields
hold the raw values taken from the parsed JSON. -/
structure Scenario where
  country : Json
  scenarioName : Json
  probability : Json
  peopleAffected : Json

/-- Decimal digits of a natural number. -/
def natChars (n : Nat) : List Char := Nat.toDigits 10 n

/-- Python `str(n)` for an integer. -/
def intChars (n : Int) : List Char :=
  if n < 0 then '-' :: natChars n.natAbs else natChars n.toNat

mutual

/-- Python `repr` of a value produced by `json.loads`, used when such a
value is interpolated inside a list or dict rendering. -/
def pyRepr : Json → List Char
  | Json.null => "None".data
  | Json.bool true => "True".data
  | Json.bool false => "False".data
  | Json.num n => intChars n
  | Json.str s => '\x27' :: s ++ ['\x27']
  | Json.arr xs => '[' :: pyReprElems xs ++ [']']
  | Json.obj kvs => '\x7b' :: pyReprKvs kvs ++ ['\x7d']

/-- Comma-separated `repr`s of list elements. -/
def pyReprElems : List Json → List Char
  | [] => []
  | [x] => pyRepr x
  | x :: y :: t => pyRepr x ++ ", ".data ++ pyReprElems (y :: t)

/-- Comma-separated `repr`s of dict entries. -/
def pyReprKvs : List (List Char × Json) → List Char
  | [] => []
  | [(k, v)] => '\x27' :: k ++ "\x27: ".data ++ pyRepr v
  | (k, v) :: q :: t => '\x27' :: k ++ "\x27: ".data ++ pyRepr v ++ ", ".data ++ pyReprKvs (q :: t)

end

/-- Python `str()` of a value produced by `json.loads`, as used by the
f-string on line 110. -/
def pyStr : Json → List Char
  | Json.str s => s
  | Json.null => "None".data
  | Json.bool true => "True".data
  | Json.bool false => "False".data
  | Json.num n => intChars n
  | Json.arr xs => pyRepr (Json.arr xs)
  | Json.obj kvs => pyRepr (Json.obj kvs)

/-- Build one scenario record (lines 91-96); `scenario.get` on a
non-dict raises `AttributeError`. -/
def scenario_of_item (country : Json) (item : Json) : Except PyExc Scenario :=
  match item with
  | Json.obj skvs =>
    Except.ok
      { country := country
        scenarioName := dict_get skvs ("name".data) (Json.str ("N/A".data))
        probability := dict_get skvs ("probability".data) (Json.str ("N/A".data))
        peopleAffected := dict_get skvs ("affected".data) (Json.str ("N/A".data)) }
  | _ => Except.error PyExc.attributeError

/-- The `for scenario in data.get("scenarios", [])` loop body (lines
90-96).  Iterating a string yields its one-character strings and a dict
its keys, on which `.get` raises `AttributeError`; iterating a
non-iterable raises `TypeError`. -/
def scenarios_from (country : Json) (v : Json) : Except PyExc (List Scenario) :=
  match v with
  | Json.arr items => items.mapM (scenario_of_item country)
  | Json.str s => if s.isEmpty then Except.ok [] else Except.error PyExc.attributeError
  | Json.obj kvs => if kvs.isEmpty then Except.ok [] else Except.error PyExc.attributeError
  | _ => Except.error PyExc.typeError

/-- Records contributed by one parsed block (lines 89-96);
`data.get` on a non-dict raises `AttributeError`. -/
def records_of (data : Json) : Except PyExc (List Scenario) :=
  match data with
  | Json.obj kvs =>
    scenarios_from (dict_get kvs ("country".data) (Json.str ("Unknown".data)))
      (dict_get kvs ("scenarios".data) (Json.arr []))
  | _ => Except.error PyExc.attributeError

/-- The body of the `try` on lines 86-96 for one block: parse it, then
build its records. -/
def try_block (b : List Char) : Except PyExc (List Scenario) :=
  match json_loads b with
  | none => Except.error PyExc.jsonDecodeError
  | some data => records_of data

/-- The `for block in json_blocks` loop (lines 85-99): a
`json.JSONDecodeError` is caught and the block skipped (`continue`);
any other exception propagates. -/
def process_blocks : List (List Char) → Except PyExc (List Scenario)
  | [] => Except.ok []
  | b :: rest =>
    match try_block b with
    | Except.ok rs => (process_blocks rest).map (fun acc => rs ++ acc)
    | Except.error PyExc.jsonDecodeError => process_blocks rest
    | Except.error e => Except.error e

/-- The table returned on line 83 when the regex finds no blocks. -/
def no_data_found_table : List Char :=
  "| Country | Scenario Name | Probability | People Affected |\n|---|---|---|---|\n| No data found | - | - | - |".data

/-- The table returned on line 103 when no scenario was extracted. -/
def no_data_extracted_table : List Char :=
  "| Country | Scenario Name | Probability | People Affected |\n|---|---|---|---|\n| No data extracted | - | - | - |".data

/-- The table header plus separator row (line 109). -/
def table_header : List Char :=
  "| Country | Scenario Name | Probability | People Affected |\n|---|---|---|---|\n".data

/-- One rendered table row (line 110). -/
def render_row (s : Scenario) : List Char :=
  "| ".data ++ pyStr s.country ++ " | ".data ++ pyStr s.scenarioName ++ " | ".data ++
    pyStr s.probability ++ " | ".data ++ pyStr s.peopleAffected ++ " |".data

/-- Python string `<=` on `str` values: lexicographic by code point. -/
def lexLe : List Char → List Char → Bool
  | [], _ => true
  | _ :: _, [] => false
  | c :: cs, d :: ds =>
    if c.toNat < d.toNat then true
    else if d.toNat < c.toNat then false
    else lexLe cs ds

/-- Is this JSON value a Python `str`? -/
def isStrJson : Json → Bool
  | Json.str _ => true
  | _ => false

/-- The underlying characters of a `str` value (the sort key is only
ever compared between `str` values, enforced by `pySortScenarios`). -/
def strOf : Json → List Char
  | Json.str s => s
  | _ => []

/-- Comparator used by the stable sort on line 106: records ordered by
their `Country` value. -/
def scenLe (a b : Scenario) : Bool := lexLe (strOf a.country) (strOf b.country)

/-- The sorted record list: Python `list.sort(key=...)` is a stable
ascending sort, whose output is uniquely determined by stability, so
the stable `List.mergeSort` embeds it. -/
def sort_scenarios (l : List Scenario) : List Scenario := l.mergeSort scenLe

/-- Line 106, `all_scenarios.sort(key=lambda x: x["Country"])`, with
its exception behaviour: comparing non-`str` keys raises `TypeError`
(lists of at most one element are never compared). -/
def pySortScenarios (l : List Scenario) : Except PyExc (List Scenario) :=
  if l.all (fun s => isStrJson s.country) then Except.ok (sort_scenarios l)
  else if l.length ≤ 1 then Except.ok l
  else Except.error PyExc.typeError

/-- Lines 101-112: the sentinel for an empty record list, otherwise the
sorted and rendered table (header, separator, one line per record,
joined by newlines). -/
def build_table (all_scenarios : List Scenario) : Except PyExc (List Char) :=
  if all_scenarios.isEmpty then Except.ok no_data_extracted_table
  else
    match pySortScenarios all_scenarios with
    | Except.error e => Except.error e
    | Except.ok sorted => Except.ok (table_header ++ List.intercalate ("\n".data) (sorted.map render_row))

/-- Line 79: `re.findall` over `all_reports_text` with `re.DOTALL`.  The
pattern literal in the source is the empty string, which matches the
empty string once at every one of the `len(text) + 1` positions, so
`findall` returns that many empty strings. -/
def json_blocks (t : List Char) : List (List Char) :=
  List.replicate (t.length + 1) []

/-- The view the spec gives of line 79 plus the parse step: the
candidate blocks that parse successfully. -/
def parsed_blocks (t : List Char) : List Json :=
  (json_blocks t).filterMap json_loads

/-- Lines 70-112, `parse_reports_and_build_table`, with uncaught
exceptions surfaced as `Except.error`. -/
def parse_reports_and_build_table (t : List Char) : Except PyExc (List Char) :=
  if (json_blocks t).isEmpty then Except.ok no_data_found_table
  else
    match process_blocks (json_blocks t) with
    | Except.error e => Except.error e
    | Except.ok all_scenarios => build_table all_scenarios

/-! The report generator, `generate_report_for_country`, lines 54-68,
and the per-country loop of `main` (lines 127-134) -/

/-- The body of `generate_report_for_country` for one invocation of the
backend.  The backend either returns text (`Except.ok`) or raises
(`Except.error`); the `try`/`except Exception` catches every exception
and returns `None` (line 68), so the body itself never raises. -/
def report_body (resp : Except Unit (List Char)) : Except PyExc (Option (List Char)) :=
  Except.ok
    (match resp with
     | Except.ok t => some (clean_text t)
     | Except.error _ => none)

/-- The decorator `@backoff.on_exception(backoff.expo, Exception, max_tries=n)`:
re-invoke the wrapped call while it raises, up to `n` tries in total,
re-raising the last exception.  The exponentially growing sleeps do not
affect the computed value and are not modelled. -/
def backoffRetry {ε α : Type} (f : Nat → Except ε α) : Nat → Nat → Except ε α
  | 0, k => f k
  | 1, k => f k
  | n + 2, k =>
    match f k with
    | Except.ok v => Except.ok v
    | Except.error _ => backoffRetry f (n + 1) (k + 1)

/-- Lines 54-68, `generate_report_for_country`: the decorated function,
with `max_tries=3`, over a backend whose behaviour on the `k`-th
attempt is `attempts k`. -/
def generate_report_for_country (attempts : Nat → Except Unit (List Char)) :
    Except PyExc (Option (List Char)) :=
  backoffRetry (fun k => report_body (attempts k)) 3 0

/-- The per-country loop of `main` (lines 127-134): call the generator
for each country in order and keep the truthy results (`if report:`
drops both `None` and the empty string).  An exception escaping the
generator would abort the loop, hence the `Except`. -/
def collect_reports (att : String → Nat → Except Unit (List Char)) :
    List String → Except PyExc (List (List Char))
  | [] => Except.ok []
  | c :: rest =>
    match generate_report_for_country (att c) with
    | Except.error e => Except.error e
    | Except.ok none => collect_reports att rest
    | Except.ok (some r) =>
      if r.isEmpty then collect_reports att rest
      else (collect_reports att rest).map (fun l => r :: l)

/-- Does an `Except` computation return normally (no exception)? -/
def exceptOk {ε α : Type} : Except ε α → Bool
  | Except.ok _ => true
  | Except.error _ => false

/-! Concrete inputs used to evaluate the code. -/

/-- A well-formed structured-data payload: one country, one scenario. -/
def c1_payload : List Char :=
  "\x7b\"country\": \"Chad\", \"scenarios\": [\x7b\"name\": \"Flood\", \"probability\": \"40%\", \"affected\": \"120000\"\x7d]\x7d".data

/-- The JSON value `c1_payload` denotes. -/
def c1_json : Json :=
  Json.obj
    [("country".data, Json.str ("Chad".data)),
     ("scenarios".data,
      Json.arr
        [Json.obj
          [("name".data, Json.str ("Flood".data)),
           ("probability".data, Json.str ("40%".data)),
           ("affected".data, Json.str ("120000".data))]])]

/-- A report text carrying `c1_payload` inside the HTML-comment marker
pair the surrounding code refers to (N = 1 report, M = 1 scenario). -/
def c1_input : List Char :=
  "Chad report\n<!--SCENARIO_DATA_BLOCK ".data ++ c1_payload ++ " -->".data

/-- A second well-formed payload, for the round-trip scenario. -/
def c2_payload : List Char :=
  "\x7b\"country\": \"Fiji\", \"scenarios\": [\x7b\"name\": \"Cyclone\", \"probability\": \"55%\", \"affected\": \"80000\"\x7d]\x7d".data

/-- The JSON value `c2_payload` denotes. -/
def c2_json : Json :=
  Json.obj
    [("country".data, Json.str ("Fiji".data)),
     ("scenarios".data,
      Json.arr
        [Json.obj
          [("name".data, Json.str ("Cyclone".data)),
           ("probability".data, Json.str ("55%".data)),
           ("affected".data, Json.str ("80000".data))]])]

/-- A report text carrying `c2_payload` inside the marker pair. -/
def c2_input : List Char :=
  "<!--SCENARIO_DATA_BLOCK ".data ++ c2_payload ++ " -->\n\n---\n\nFiji narrative".data

/-- A backend response text. -/
def c3_raw : List Char := "Chad: Six-Month Risk Outlook".data

/-- A backend that raises on its first two attempts and succeeds on the
third. -/
def c3_fail_twice (k : Nat) : Except Unit (List Char) :=
  if k < 2 then Except.error () else Except.ok c3_raw

/-- A backend that succeeds immediately. -/
def c3_immediate (_k : Nat) : Except Unit (List Char) := Except.ok c3_raw

/-- A response wrapped in a markdown fence whose body also contains
fence-like text. -/
def c4_input : List Char := "```markdown\nA ``` B\n```".data

/-- A candidate block whose payload fails to parse as JSON. -/
def c5_bad_block : List Char := "\x7b\"country\": \"Chad\"".data

/-- A candidate block that parses fine. -/
def c5_good_block : List Char :=
  "\x7b\"country\": \"Chad\", \"scenarios\": [\x7b\"name\": \"Flood\"\x7d]\x7d".data

/-- Three records with a duplicated country key, to exercise sorting
and stability. -/
def c7_records : List Scenario :=
  [{ country := Json.str ("Chad".data), scenarioName := Json.str ("first Chad row".data),
     probability := Json.str ("40%".data), peopleAffected := Json.str ("120000".data) },
   { country := Json.str ("Albania".data), scenarioName := Json.str ("Albania row".data),
     probability := Json.str ("10%".data), peopleAffected := Json.str ("5000".data) },
   { country := Json.str ("Chad".data), scenarioName := Json.str ("second Chad row".data),
     probability := Json.str ("20%".data), peopleAffected := Json.str ("30000".data) }]

/-- A backend family where generation fails for country "Chad" and
succeeds for the others. -/
def c8_att (c : String) (_k : Nat) : Except Unit (List Char) :=
  if c = "Chad" then Except.error () else Except.ok ("Report for ".data ++ c.data)

/-! Helper lemmas. -/

theorem json_loads_nil : json_loads ([] : List Char) = none := rfl

theorem try_block_nil : try_block ([] : List Char) = Except.error PyExc.jsonDecodeError := rfl

/-- Every candidate block the empty pattern yields is the empty string,
which fails to parse and is skipped, so the loop accumulates nothing. -/
theorem process_blocks_replicate_nil (n : Nat) :
    process_blocks (List.replicate n ([] : List Char)) = Except.ok [] := by
  induction n with
  | zero => rfl
  | succ k ih =>
    rw [List.replicate_succ]
    simp only [process_blocks, try_block_nil]
    exact ih

/-- The function `parse_reports_and_build_table` is constant: with the
empty pattern every block is empty, none parses, and the function
returns the "No data extracted" sentinel on every input. -/
theorem parse_table_eq_sentinel (t : List Char) :
    parse_reports_and_build_table t = Except.ok no_data_extracted_table := by
  have h1 : (json_blocks t).isEmpty = false := by
    simp [json_blocks, List.replicate_succ]
  have h2 : process_blocks (json_blocks t) = Except.ok [] :=
    process_blocks_replicate_nil _
  simp [parse_reports_and_build_table, h1, h2, build_table]

/-- No candidate block ever parses successfully. -/
theorem parsed_blocks_eq_nil (t : List Char) : parsed_blocks t = [] := by
  have h : ∀ n, (List.replicate n ([] : List Char)).filterMap json_loads = [] := by
    intro n
    induction n with
    | zero => rfl
    | succ k ih => simp [List.replicate_succ, List.filterMap_cons, json_loads_nil, ih]
  simpa [parsed_blocks, json_blocks] using h (t.length + 1)

/-! Claims. -/

/-- C9: `parse_reports_and_build_table` is total: on every input it
returns a table string and no exception (JSON decoding, attribute or
type errors included) escapes it. -/
theorem claim_C9 (t : List Char) :
    ∃ s, parse_reports_and_build_table t = Except.ok s :=
  ⟨no_data_extracted_table, parse_table_eq_sentinel t⟩

/-- C10: the regex scan yields one candidate per position of the input
(the empty pattern matches everywhere), hence a non-empty candidate
list, so the "No data found" branch is unreachable and the function
never returns that sentinel. -/
theorem claim_C10 (t : List Char) :
    json_blocks t ≠ [] ∧ (json_blocks t).length = t.length + 1 ∧
      parse_reports_and_build_table t ≠ Except.ok no_data_found_table := by
  refine ⟨by simp [json_blocks], by simp [json_blocks], ?_⟩
  rw [parse_table_eq_sentinel]
  intro h
  exact absurd (Except.ok.inj h) (by decide)

/-- C6: extraction yields no successfully parsed block on any input,
and the aggregation returns the table made of exactly the header row,
the separator row and one sentinel row. -/
theorem claim_C6 (t : List Char) :
    parsed_blocks t = [] ∧
      parse_reports_and_build_table t = Except.ok no_data_extracted_table ∧
      (no_data_extracted_table.splitOn '\n').length = 3 :=
  ⟨parsed_blocks_eq_nil t, parse_table_eq_sentinel t, by decide⟩

/-- C1 (code bug): `c1_input` holds one well-formed structured-data
block with exactly one scenario (M = 1), yet the aggregation returns
the "No data extracted" sentinel — zero scenario rows, with the
scenario name absent from the output — because the scan pattern on
line 79 is the empty string and never captures a block payload. -/
theorem claim_C1_code_evaluation :
    json_loads c1_payload = some c1_json ∧
      parse_reports_and_build_table c1_input = Except.ok no_data_extracted_table ∧
      hasSub ("Flood".data) no_data_extracted_table = false :=
  ⟨rfl, parse_table_eq_sentinel c1_input, by decide⟩

/-- C2 (code bug): `c2_input` holds a well-formed block whose payload
parses to `c2_json`, but extraction yields no parsed block at all and
the output reproduces none of the `name`/`probability`/`affected`
strings: the round trip fails because the marker pattern on line 79 is
the empty string. -/
theorem claim_C2_code_evaluation :
    json_loads c2_payload = some c2_json ∧
      parsed_blocks c2_input = [] ∧
      parse_reports_and_build_table c2_input = Except.ok no_data_extracted_table ∧
      hasSub ("Cyclone".data) no_data_extracted_table = false :=
  ⟨rfl, parsed_blocks_eq_nil c2_input, parse_table_eq_sentinel c2_input, by decide⟩

/-- C3 (code bug): with a backend that raises twice and succeeds on the
third attempt, `generate_report_for_country` returns `None` instead of
the report: the `except Exception` inside the function swallows the
exception before `backoff` can see it, so no retry ever happens and the
result differs from the immediate-success call. -/
theorem claim_C3_code_evaluation :
    generate_report_for_country c3_fail_twice = Except.ok none ∧
      generate_report_for_country c3_immediate = Except.ok (some (clean_text c3_raw)) ∧
      (Except.ok none : Except PyExc (Option (List Char))) ≠
        Except.ok (some (clean_text c3_raw)) :=
  ⟨rfl, rfl, by simp⟩

/-- C5: a candidate block whose payload fails to parse as JSON is
skipped — the loop behaves exactly as if the block were absent, so no
exception escapes on its account and every remaining block is still
processed. -/
theorem claim_C5 (pre post : List (List Char)) (b : List Char)
    (h : json_loads b = none) :
    process_blocks (pre ++ b :: post) = process_blocks (pre ++ post) := by
  induction pre with
  | nil => simp only [List.nil_append, process_blocks, try_block, h]
  | cons a pre ih =>
    simp only [List.cons_append, process_blocks]
    cases try_block a with
    | ok rs => dsimp only; exact congrArg _ ih
    | error e =>
      cases e with
      | jsonDecodeError => exact ih
      | attributeError => rfl
      | typeError => rfl

/-- C5, evaluated: a truncated block is skipped and the block after it
is still processed. -/
theorem claim_C5_witness :
    json_loads c5_bad_block = none ∧
      process_blocks [c5_bad_block, c5_good_block] = process_blocks [c5_good_block] :=
  ⟨rfl, claim_C5 [] [c5_good_block] c5_bad_block rfl⟩

/-- The decorated generator never raises: its `try` swallows every
backend exception, so the result is determined by the first attempt. -/
theorem generate_eq (a : Nat → Except Unit (List Char)) :
    generate_report_for_country a =
      Except.ok
        (match a 0 with
         | Except.ok t => some (clean_text t)
         | Except.error _ => none) := rfl

/-- The per-country loop returns normally on every input. -/
theorem collect_reports_ok (att : String → Nat → Except Unit (List Char)) :
    ∀ cs : List String, exceptOk (collect_reports att cs) = true := by
  intro cs
  induction cs with
  | nil => rfl
  | cons a rest ih =>
    simp only [collect_reports, generate_eq]
    cases att a 0 with
    | error e => exact ih
    | ok t =>
      dsimp only
      by_cases he : (clean_text t).isEmpty = true
      · rw [if_pos he]; exact ih
      · rw [if_neg he]
        cases hc : collect_reports att rest with
        | error e => rw [hc] at ih; simp [exceptOk] at ih
        | ok l => rfl

/-- C8: when the backend raises for one country, the per-country loop
carries on exactly as if that country were absent — the failed country
is omitted from the collected reports — and the loop never aborts. -/
theorem claim_C8 (att : String → Nat → Except Unit (List Char))
    (pre post : List String) (c : String)
    (h : att c 0 = Except.error ()) :
    collect_reports att (pre ++ c :: post) = collect_reports att (pre ++ post) ∧
      exceptOk (collect_reports att (pre ++ c :: post)) = true := by
  constructor
  · induction pre with
    | nil =>
      simp only [List.nil_append, collect_reports, generate_eq, h]
    | cons a pre ih =>
      simp only [List.cons_append, collect_reports, generate_eq]
      cases att a 0 with
      | error e => exact ih
      | ok t =>
        dsimp only
        by_cases he : (clean_text t).isEmpty = true
        · rw [if_pos he, if_pos he]; exact ih
        · rw [if_neg he, if_neg he]; exact congrArg _ ih
  · exact collect_reports_ok att _

/-- C8, evaluated: generation for "Chad" fails, the two other countries
still go through. -/
theorem claim_C8_witness :
    c8_att "Chad" 0 = Except.error () ∧
      (collect_reports c8_att ["Albania", "Chad", "Fiji"] =
          collect_reports c8_att ["Albania", "Fiji"] ∧
        exceptOk (collect_reports c8_att ["Albania", "Chad", "Fiji"]) = true) :=
  ⟨rfl, claim_C8 c8_att ["Albania"] ["Fiji"] "Chad" rfl⟩

/-! Sorting: the comparator is a total preorder and the sort is stable. -/

theorem lexLe_refl (s : List Char) : lexLe s s = true := by
  induction s with
  | nil => rfl
  | cons c t ih => simp [lexLe, ih]

theorem lexLe_cons_iff (x y : Char) (t u : List Char) :
    lexLe (x :: t) (y :: u) = true ↔
      x.toNat < y.toNat ∨ (x.toNat = y.toNat ∧ lexLe t u = true) := by
  simp only [lexLe]
  by_cases h1 : x.toNat < y.toNat
  · simp [h1]
  · by_cases h2 : y.toNat < x.toNat
    · rw [if_neg h1, if_pos h2]
      constructor
      · intro hF; exact absurd hF (by simp)
      · rintro (h | ⟨h, _⟩) <;> omega
    · have hxy : x.toNat = y.toNat := by omega
      simp [h1, h2, hxy]

theorem lexLe_total (a b : List Char) : lexLe a b || lexLe b a := by
  induction a generalizing b with
  | nil => simp [lexLe]
  | cons c t ih =>
    cases b with
    | nil => simp [lexLe]
    | cons d u =>
      by_cases h1 : c.toNat < d.toNat
      · simp [lexLe, h1]
      · by_cases h2 : d.toNat < c.toNat
        · simp [lexLe, h1, h2]
        · have hcd : c.toNat = d.toNat := by omega
          have := ih u
          simp only [lexLe, if_neg h1, if_neg h2, hcd, Nat.lt_irrefl, if_false] at this ⊢
          exact this

theorem lexLe_trans (a b c : List Char) (h1 : lexLe a b = true) (h2 : lexLe b c = true) :
    lexLe a c = true := by
  induction a generalizing b c with
  | nil => simp [lexLe]
  | cons x t ih =>
    cases b with
    | nil => simp [lexLe] at h1
    | cons y u =>
      cases c with
      | nil => simp [lexLe] at h2
      | cons z v =>
        rw [lexLe_cons_iff] at h1 h2 ⊢
        rcases h1 with h1 | ⟨e1, r1⟩
        · rcases h2 with h2 | ⟨e2, r2⟩
          · exact Or.inl (by omega)
          · exact Or.inl (by omega)
        · rcases h2 with h2 | ⟨e2, r2⟩
          · exact Or.inl (by omega)
          · exact Or.inr ⟨by omega, ih u v r1 r2⟩

theorem scenLe_trans (a b c : Scenario) (h1 : scenLe a b) (h2 : scenLe b c) : scenLe a c :=
  lexLe_trans _ _ _ h1 h2

theorem scenLe_total (a b : Scenario) : scenLe a b || scenLe b a :=
  lexLe_total _ _

/-- The sort is stable: records with any given country key keep their
original relative order. -/
theorem filter_sort_scenarios (l : List Scenario) (k : List Char) :
    (sort_scenarios l).filter (fun s => strOf s.country == k) =
      l.filter (fun s => strOf s.country == k) := by
  set p : Scenario → Bool := fun s => strOf s.country == k with hp
  have hpair : (l.filter p).Pairwise (fun a b => scenLe a b) := by
    apply List.pairwise_of_forall_mem_list
    intro a ha b hb
    have hak : strOf a.country = k := by
      have := (List.mem_filter.mp ha).2
      rw [hp] at this
      exact eq_of_beq this
    have hbk : strOf b.country = k := by
      have := (List.mem_filter.mp hb).2
      rw [hp] at this
      exact eq_of_beq this
    show scenLe a b = true
    unfold scenLe
    rw [hak, hbk]
    exact lexLe_refl k
  have hsub : List.Sublist (l.filter p) (sort_scenarios l) :=
    List.sublist_mergeSort scenLe_trans scenLe_total hpair (List.filter_sublist l)
  have hperm : List.Perm ((sort_scenarios l).filter p) (l.filter p) :=
    (List.mergeSort_perm l scenLe).filter p
  have hidem : (l.filter p).filter p = l.filter p := by
    rw [List.filter_filter]
    apply List.filter_congr
    intro a _
    exact Bool.and_self (p a)
  have hsub2 : List.Sublist (l.filter p) ((sort_scenarios l).filter p) := by
    have := hsub.filter p
    rwa [hidem] at this
  exact (hsub2.eq_of_length hperm.length_eq.symm).symm

/-- C7: the rendered summary table lists the records sorted by country
name ascending (by code point, as Python compares `str`), and the sort
is stable — records with equal country names keep their encounter
order.  (`l` ranges over record lists with string-valued country keys,
the only kind the block format produces.) -/
theorem claim_C7 (l : List Scenario) (k : List Char)
    (hne : l ≠ [])
    (hstr : l.all (fun s => isStrJson s.country) = true) :
    pySortScenarios l = Except.ok (sort_scenarios l) ∧
      build_table l =
        Except.ok (table_header ++
          List.intercalate ("\n".data) ((sort_scenarios l).map render_row)) ∧
      List.Pairwise (fun a b => scenLe a b = true) (sort_scenarios l) ∧
      (sort_scenarios l).filter (fun s => strOf s.country == k) =
        l.filter (fun s => strOf s.country == k) := by
  have hsorteq : pySortScenarios l = Except.ok (sort_scenarios l) := by
    simp [pySortScenarios, hstr]
  have hni : l.isEmpty = false := by
    cases l with
    | nil => exact absurd rfl hne
    | cons a t => rfl
  refine ⟨hsorteq, ?_, ?_, filter_sort_scenarios l k⟩
  · simp [build_table, hni, hsorteq]
  · simpa using List.sorted_mergeSort scenLe_trans scenLe_total l

/-- C7, evaluated on three records ("Chad", "Albania", "Chad"): the
rows come out Albania, Chad, Chad, with the two Chad rows in their
original order. -/
theorem claim_C7_witness :
    c7_records ≠ [] ∧
      c7_records.all (fun s => isStrJson s.country) = true ∧
      (pySortScenarios c7_records = Except.ok (sort_scenarios c7_records) ∧
        build_table c7_records =
          Except.ok (table_header ++
            List.intercalate ("\n".data) ((sort_scenarios c7_records).map render_row)) ∧
        List.Pairwise (fun a b => scenLe a b = true) (sort_scenarios c7_records) ∧
        (sort_scenarios c7_records).filter (fun s => strOf s.country == "Chad".data) =
          c7_records.filter (fun s => strOf s.country == "Chad".data)) :=
  ⟨by simp [c7_records], rfl,
    claim_C7 c7_records ("Chad".data) (by simp [c7_records]) rfl⟩

/-! Fence cleaning: after `clean_text` no fence marker survives. -/

theorem isPrefixOf_eq_true_iff {l₁ l₂ : List Char} :
    l₁.isPrefixOf l₂ = true ↔ List.IsPrefix l₁ l₂ := by
  exact List.isPrefixOf_iff_prefix

theorem consPre_iff {a b : Char} {l₁ l₂ : List Char} :
    List.IsPrefix (a :: l₁) (b :: l₂) ↔ a = b ∧ List.IsPrefix l₁ l₂ := by
  exact List.cons_prefix_cons

/-- Skipping `k` characters is dropping them. -/
theorem pyRemoveAux_skip (pat : List Char) :
    ∀ (s : List Char) (k : Nat), pyRemoveAux pat k s = pyRemoveAux pat 0 (s.drop k) := by
  intro s
  induction s with
  | nil => intro k; cases k <;> rfl
  | cons c t ih =>
    intro k
    cases k with
    | zero => rfl
    | succ k =>
      rw [show pyRemoveAux pat (k + 1) (c :: t) = pyRemoveAux pat k t from rfl]
      rw [List.drop_succ_cons]
      exact ih k

/-- If the scan output starts with a backtick, so does its input. -/
theorem pyRemove_head (s : List Char)
    (h : (pyRemoveAux tickFence 0 s).head? = some tick) : s.head? = some tick := by
  cases s with
  | nil => simp [pyRemoveAux] at h
  | cons c t =>
    by_cases hp : tickFence.isPrefixOf (c :: t) = true
    · have hpre := isPrefixOf_eq_true_iff.mp hp
      rw [show tickFence = tick :: [tick, tick] from rfl] at hpre
      rw [(consPre_iff.mp hpre).1]
      rfl
    · rw [show pyRemoveAux tickFence 0 (c :: t) =
          if tickFence.isPrefixOf (c :: t) then pyRemoveAux tickFence (tickFence.length - 1) t
          else c :: pyRemoveAux tickFence 0 t from rfl, if_neg hp] at h
      simp only [List.head?_cons, Option.some.injEq] at h
      simp [h]

/-- If the scan output starts with two backticks, so does its input. -/
theorem pyRemove_two (s : List Char)
    (h : List.IsPrefix [tick, tick] (pyRemoveAux tickFence 0 s)) :
    List.IsPrefix [tick, tick] s := by
  cases s with
  | nil =>
    exfalso
    have := h.length_le
    simp [pyRemoveAux] at this
  | cons c t =>
    by_cases hp : tickFence.isPrefixOf (c :: t) = true
    · have hpre := isPrefixOf_eq_true_iff.mp hp
      have h2 : List.IsPrefix [tick, tick] tickFence := ⟨[tick], rfl⟩
      exact h2.trans hpre
    · rw [show pyRemoveAux tickFence 0 (c :: t) =
          if tickFence.isPrefixOf (c :: t) then pyRemoveAux tickFence (tickFence.length - 1) t
          else c :: pyRemoveAux tickFence 0 t from rfl, if_neg hp] at h
      obtain ⟨hc, htail⟩ := consPre_iff.mp h
      obtain ⟨w, hw⟩ := htail
      have hh : (pyRemoveAux tickFence 0 t).head? = some tick := by
        rw [← hw]; rfl
      have ht := pyRemove_head t hh
      cases t with
      | nil => simp at ht
      | cons d u =>
        simp only [List.head?_cons, Option.some.injEq] at ht
        exact ⟨u, by rw [← hc, ht]; rfl⟩

/-- Core invariant: the scan removes every occurrence of the fence, and
its output never contains one. -/
theorem pyRemove_no_ticks :
    ∀ (n : Nat) (s : List Char), s.length ≤ n →
      hasSub tickFence (pyRemoveAux tickFence 0 s) = false := by
  intro n
  induction n with
  | zero =>
    intro s hs
    have : s = [] := List.length_eq_zero.mp (Nat.le_zero.mp hs)
    subst this
    rfl
  | succ n ih =>
    intro s hs
    cases s with
    | nil => rfl
    | cons c t =>
      by_cases hp : tickFence.isPrefixOf (c :: t) = true
      · rw [show pyRemoveAux tickFence 0 (c :: t) =
            if tickFence.isPrefixOf (c :: t) then pyRemoveAux tickFence (tickFence.length - 1) t
            else c :: pyRemoveAux tickFence 0 t from rfl, if_pos hp]
        rw [show tickFence.length - 1 = 2 from rfl]
        rw [pyRemoveAux_skip tickFence t 2]
        apply ih
        have := List.length_drop 2 t
        simp only [List.length_cons] at hs
        omega
      · rw [show pyRemoveAux tickFence 0 (c :: t) =
            if tickFence.isPrefixOf (c :: t) then pyRemoveAux tickFence (tickFence.length - 1) t
            else c :: pyRemoveAux tickFence 0 t from rfl, if_neg hp]
        show (tickFence.isPrefixOf (c :: pyRemoveAux tickFence 0 t) || hasSub tickFence (pyRemoveAux tickFence 0 t)) = false
        rw [Bool.or_eq_false_iff]
        constructor
        · cases hpp : tickFence.isPrefixOf (c :: pyRemoveAux tickFence 0 t) with
          | false => rfl
          | true =>
            exfalso
            have hpre := isPrefixOf_eq_true_iff.mp hpp
            rw [show tickFence = tick :: [tick, tick] from rfl] at hpre
            obtain ⟨hc, h2⟩ := consPre_iff.mp hpre
            have h3 := pyRemove_two t h2
            apply hp
            rw [isPrefixOf_eq_true_iff]
            rw [show tickFence = tick :: [tick, tick] from rfl]
            exact consPre_iff.mpr ⟨hc, h3⟩
        · apply ih
          simp only [List.length_cons] at hs
          omega

theorem hasSub_iff (pat : List Char) :
    ∀ s : List Char, hasSub pat s = true ↔ List.IsInfix pat s := by
  intro s
  induction s with
  | nil =>
    show pat.isEmpty = true ↔ _
    rw [List.isEmpty_iff]
    exact Iff.symm List.infix_nil
  | cons c t ih =>
    show (pat.isPrefixOf (c :: t) || hasSub pat t) = true ↔ _
    rw [Bool.or_eq_true, ih, isPrefixOf_eq_true_iff]
    exact Iff.symm List.infix_cons_iff

/-- Being a contiguous part of a clean string keeps a string clean. -/
theorem hasSub_false_mono {pat u v : List Char}
    (hiv : List.IsInfix u v) (h : hasSub pat v = false) : hasSub pat u = false := by
  cases hu : hasSub pat u with
  | false => rfl
  | true =>
    have h1 := (hasSub_iff pat u).mp hu
    have h2 := (hasSub_iff pat v).mpr (h1.trans hiv)
    rw [h2] at h
    cases h

/-- Stripping only removes characters at the two ends. -/
theorem pyStrip_isInfix (s : List Char) : List.IsInfix (pyStrip s) s := by
  have h1 : List.IsSuffix (List.dropWhile pyIsSpace s.reverse) s.reverse :=
    List.dropWhile_suffix _
  have h2 : List.IsPrefix ((List.dropWhile pyIsSpace s.reverse).reverse) s := by
    have := List.reverse_prefix.mpr h1
    rwa [List.reverse_reverse] at this
  have h3 : List.IsSuffix (pyStrip s) ((List.dropWhile pyIsSpace s.reverse).reverse) :=
    List.dropWhile_suffix _
  exact h3.isInfix.trans h2.isInfix

/-- Removing the bare fence leaves no fence occurrence behind. -/
theorem pyRemove_tickFence_no_ticks (s : List Char) :
    hasSub tickFence (pyRemove tickFence s) = false := by
  rw [pyRemove, if_neg (by simp [tickFence, List.isEmpty])]
  exact pyRemove_no_ticks s.length s (Nat.le_refl _)

/-- The stripped string does not start with whitespace. -/
theorem pyStrip_head (s : List Char) (c : Char)
    (hc : (pyStrip s).head? = some c) : pyIsSpace c = false := by
  have := List.head?_dropWhile_not pyIsSpace ((List.dropWhile pyIsSpace s.reverse).reverse)
  rw [show pyStrip s = List.dropWhile pyIsSpace ((List.dropWhile pyIsSpace s.reverse).reverse)
      from rfl] at hc
  rw [hc] at this
  exact this

/-- The stripped string does not end with whitespace. -/
theorem pyStrip_getLast (s : List Char) (c : Char)
    (hc : (pyStrip s).getLast? = some c) : pyIsSpace c = false := by
  have hsuf : List.IsSuffix (pyStrip s) ((List.dropWhile pyIsSpace s.reverse).reverse) :=
    List.dropWhile_suffix _
  obtain ⟨w, hw⟩ := hsuf
  have hlast : ((List.dropWhile pyIsSpace s.reverse).reverse).getLast? = some c := by
    rw [← hw, List.getLast?_append, hc]
    rfl
  rw [List.getLast?_reverse] at hlast
  have := List.head?_dropWhile_not pyIsSpace s.reverse
  rw [hlast] at this
  exact this

/-- C4 as stated is false: on a response wrapped in a markdown fence
whose body contains fence-like text, the cleaning step also deletes the
mid-document fence (`str.replace` replaces every occurrence), so the
output is "A  B" and not the "A ``` B" the claim requires. -/
theorem claim_C4_counterexample :
    clean_text c4_input = "A  B".data ∧ clean_text c4_input ≠ "A ``` B".data := by
  constructor
  · decide
  · decide

/-- C4 amended: the cleaning step strips surrounding whitespace and
removes every occurrence of the fence markers — leading, trailing and
mid-document alike — so no fence marker at all survives cleaning, and
the result neither starts nor ends with whitespace. -/
theorem claim_C4_amended (t : List Char) :
    hasSub tickFence (clean_text t) = false ∧
      (clean_text t).head?.all (fun c => !pyIsSpace c) = true ∧
      (clean_text t).getLast?.all (fun c => !pyIsSpace c) = true := by
  refine ⟨?_, ?_, ?_⟩
  · exact hasSub_false_mono (pyStrip_isInfix _) (pyRemove_tickFence_no_ticks _)
  · cases hh : (clean_text t).head? with
    | none => rfl
    | some c =>
      have := pyStrip_head (pyRemove tickFence (pyRemove mdFence (pyStrip t))) c hh
      simp [Option.all, this]
  · cases hh : (clean_text t).getLast? with
    | none => rfl
    | some c =>
      have := pyStrip_getLast (pyRemove tickFence (pyRemove mdFence (pyStrip t))) c hh
      simp [Option.all, this]

end RiskBot
